import Mathlib

/-!
# Verification of the OMNI crypto-payments blockchain-monitoring core

Shallow embedding of the Bitcoin/Zcash monitoring core of the payment
platform: the payment / blockchain-transaction / webhook-event data model,
the repository operations (mirroring their SQL statements), the two
monitors' match-and-detect and confirmation-update routines, the RPC
retry loop, and the shielded memo codec.  Each definition is translated
from the corresponding TypeScript source:

* `src/services/blockchain/ZcashMonitor.ts` (Zcash monitor)
* `BitcoinMonitor` (Bitcoin monitor)
* `src/database/repositories/PaymentRepository.ts`
* `src/database/repositories/BlockchainTransactionRepository.ts`
* `BlockchainRpcClient` (base RPC client with retry)
* `ZcashRpcClient` (memo codec, view-key import)
* the `blockchain_transactions` SQL schema (UNIQUE constraint)

Amounts are modelled as exact decimal strings, as the database stores
them and as the TypeScript code passes them around (`value.toString()`).
-/

namespace Omni

/-- Payment status enum, from the `payment_status` type used by
`payments.status`. -/
inductive PaymentStatus
  | pending
  | detected
  | confirmed
  | expired
  | failed
  deriving DecidableEq, Repr

/-- Supported chains, from the `crypto_currency` enum. -/
inductive CryptoCurrency
  | BTC
  | ZEC
  deriving DecidableEq, Repr

/-- A row of the `payments` table, restricted to the columns the
monitoring core reads or writes. -/
structure Payment where
  id : Nat
  merchant_id : Nat
  order_id : Nat
  crypto_currency : CryptoCurrency
  crypto_address : String
  crypto_amount : String
  status : PaymentStatus
  confirmations : Nat
  txid : Option String
  detected_at : Option Nat
  confirmed_at : Option Nat
  deriving DecidableEq, Repr

/-- A row of the `blockchain_transactions` table (the fields set by
`BlockchainTransactionRepository.create`). -/
structure TxRecord where
  payment_id : Nat
  crypto_currency : CryptoCurrency
  txid : String
  to_address : String
  amount : String
  confirmations : Nat
  block_height : Option Nat
  block_hash : Option String
  is_shielded : Bool
  memo : Option String
  deriving DecidableEq, Repr

/-- Webhook event types emitted by the monitors. -/
inductive EventType
  | paymentDetected
  | paymentConfirmed
  deriving DecidableEq, Repr

/-- A row of the `webhook_events` table (fields set by
`WebhookEventRepository.create`; the payload is reduced to the fields
the claims mention). -/
structure WebhookEvent where
  merchant_id : Nat
  payment_id : Nat
  event_type : EventType
  amount : String
  deriving DecidableEq, Repr

/-- Database state visible to the monitoring core: the three tables it
reads and writes, plus the clock backing SQL `NOW()`. -/
structure DB where
  payments : List Payment
  transactions : List TxRecord
  events : List WebhookEvent
  now : Nat
  deriving DecidableEq, Repr

/-! ## Repository operations

Each mirrors the SQL statement of the TypeScript repository method.
`UPDATE ... WHERE id = $1 RETURNING *` is modelled as a map over the
rows plus a `rows.length === 0` check that produces a `NotFoundError`,
reported here as `Except Unit`. -/

/-- `BlockchainTransactionRepository.findByTxid`:
`SELECT * FROM blockchain_transactions WHERE txid = $1`. -/
def findByTxid (db : DB) (txid : String) : Option TxRecord :=
  db.transactions.find? (fun t => t.txid = txid)

/-- `PaymentRepository.findById`: `SELECT * FROM payments WHERE id = $1`. -/
def findPaymentById (db : DB) (id : Nat) : Option Payment :=
  db.payments.find? (fun p => p.id = id)

/-- `PaymentRepository.findByCryptoAddress`:
`SELECT * FROM payments WHERE crypto_address = $1`. -/
def findByCryptoAddress (db : DB) (addr : String) : Option Payment :=
  db.payments.find? (fun p => p.crypto_address = addr)

/-- `BlockchainTransactionRepository.create`: an `INSERT` into
`blockchain_transactions`.  The table carries
`UNIQUE(crypto_currency, txid, to_address)`, so the insert fails with a
`DatabaseError` when a row with the same triple already exists. -/
def createTransaction (db : DB) (t : TxRecord) : Except Unit DB :=
  if db.transactions.any (fun u =>
      u.crypto_currency = t.crypto_currency ∧ u.txid = t.txid ∧
        u.to_address = t.to_address) then
    .error ()
  else
    .ok { db with transactions := db.transactions ++ [t] }

/-- `WebhookEventRepository.create`: unconditional `INSERT` into
`webhook_events`. -/
def createWebhookEvent (db : DB) (e : WebhookEvent) : DB :=
  { db with events := db.events ++ [e] }

/-- `PaymentRepository.markAsDetected`:
`UPDATE payments SET status = 'detected', detected_at = NOW(),
updated_at = NOW() WHERE id = $1 RETURNING *`.  Note the `WHERE` clause
filters on the id only; there is no status guard in the SQL. -/
def markAsDetected (db : DB) (id : Nat) : Except Unit DB :=
  if db.payments.any (fun p => p.id = id) then
    .ok { db with
      payments := db.payments.map (fun p =>
        if p.id = id then
          { p with status := .detected, detected_at := some db.now }
        else p) }
  else
    .error ()

/-- `PaymentRepository.markAsConfirmed`:
`UPDATE payments SET status = 'confirmed', confirmed_at = NOW(),
updated_at = NOW() WHERE id = $1 RETURNING *`.  Again no status guard:
the `WHERE` clause is on the id alone. -/
def markAsConfirmed (db : DB) (id : Nat) : Except Unit DB :=
  if db.payments.any (fun p => p.id = id) then
    .ok { db with
      payments := db.payments.map (fun p =>
        if p.id = id then
          { p with status := .confirmed, confirmed_at := some db.now }
        else p) }
  else
    .error ()

/-- `PaymentRepository.linkTransaction`:
`UPDATE payments SET txid = $1, updated_at = NOW() WHERE id = $2`. -/
def linkTransaction (db : DB) (id : Nat) (txid : String) : Except Unit DB :=
  if db.payments.any (fun p => p.id = id) then
    .ok { db with
      payments := db.payments.map (fun p =>
        if p.id = id then { p with txid := some txid } else p) }
  else
    .error ()

/-- `PaymentRepository.update(id, { confirmations })` as invoked by
`updatePaymentConfirmations`: sets the confirmations column of the row
and returns the updated row. -/
def updatePaymentConfs (db : DB) (id : Nat) (confs : Nat) :
    Except Unit (DB × Payment) :=
  let db' : DB := { db with
    payments := db.payments.map (fun p =>
      if p.id = id then { p with confirmations := confs } else p) }
  match db'.payments.find? (fun p => p.id = id) with
  | some p => .ok (db', p)
  | none => .error ()

/-! ## Chain-side inputs

The shapes returned by the RPC clients, restricted to the fields the
monitors read.  Amounts appear as exact decimal strings, matching the
TypeScript `value.toString()` / database `DECIMAL` handling. -/

/-- One entry of a transaction's `vout` array: its value and the
addresses of its `scriptPubKey`. -/
structure Vout where
  value : String
  addresses : List String
  deriving DecidableEq, Repr

/-- A decoded raw transaction as returned by `getrawtransaction`
(Bitcoin and Zcash share the fields the monitors use). -/
structure ChainTx where
  txid : String
  vout : List Vout
  blockhash : Option String
  confirmations : Option Nat
  deriving DecidableEq, Repr

/-- One entry returned by `z_listreceivedbyaddress` for a shielded
address. -/
structure ReceivedEntry where
  txid : String
  amount : String
  memo : Option String
  deriving DecidableEq, Repr

/-! ## Zcash monitor: match-and-detect -/

/-- `ZcashMonitor.markPaymentDetected`: mark the payment detected, link
the txid, and create the `payment.detected` webhook event.  Each
repository call commits independently; a thrown `NotFoundError` aborts
the remaining calls but keeps the writes already made (the caller
`processZcashTransaction` catches and logs). -/
def markPaymentDetected (db : DB) (payment : Payment) (t : TxRecord) : DB :=
  match markAsDetected db payment.id with
  | .error _ => db
  | .ok db1 =>
    match linkTransaction db1 payment.id t.txid with
    | .error _ => db1
    | .ok db2 =>
      createWebhookEvent db2
        { merchant_id := payment.merchant_id
          payment_id := payment.id
          event_type := .paymentDetected
          amount := t.amount }

/-- The amount `processZcashTransaction` records: the matched
transparent output's value for transparent transactions (`'0'` when no
output matches), and the payment's expected `crypto_amount` for
shielded ones (the code comment reads `For shielded, use payment's
expected amount`). -/
def zcashTxAmount (tx : ChainTx) (payment : Payment) (isShielded : Bool) :
    String :=
  if !isShielded then
    match tx.vout.find? (fun v =>
        v.addresses.contains payment.crypto_address) with
    | some matchedOutput => matchedOutput.value
    | none => "0"
  else
    payment.crypto_amount

/-- The `blockchain_transactions` row `processZcashTransaction` builds
for `blockchainTransactionRepository.create` (`block_height` is passed
as `undefined`). -/
def zcashTxRecord (tx : ChainTx) (payment : Payment) (isShielded : Bool)
    (memo : Option String) : TxRecord :=
  { payment_id := payment.id
    crypto_currency := .ZEC
    txid := tx.txid
    to_address := payment.crypto_address
    amount := zcashTxAmount tx payment isShielded
    confirmations := tx.confirmations.getD 0
    block_height := none
    block_hash := tx.blockhash
    is_shielded := isShielded
    memo := memo }

/-- `ZcashMonitor.processZcashTransaction`: skip when a record with this
txid already exists; otherwise build the record (see `zcashTxRecord`),
create it, and mark the payment detected.  All errors are caught and
logged, leaving the state already committed. -/
def processZcashTransaction (db : DB) (tx : ChainTx) (payment : Payment)
    (isShielded : Bool) (memo : Option String) : DB :=
  match findByTxid db tx.txid with
  | some _ => db
  | none =>
    match createTransaction db (zcashTxRecord tx payment isShielded memo) with
    | .error _ => db
    | .ok db1 =>
      markPaymentDetected db1 payment (zcashTxRecord tx payment isShielded memo)

/-- The per-entry body of `ZcashMonitor.scanShieldedAddresses`: skip
entries whose txid already has a record, look the payment up by the
cached payment id (with no check of the payment's status), and run
`processZcashTransaction` with `shielded = true`. -/
def processShieldedEntry (db : DB) (paymentId : Nat) (entry : ReceivedEntry)
    (tx : ChainTx) : DB :=
  match findByTxid db entry.txid with
  | some _ => db
  | none =>
    match findPaymentById db paymentId with
    | none => db
    | some payment => processZcashTransaction db tx payment true entry.memo

/-! ## Bitcoin monitor: match-and-detect -/

/-- The deduplicated list of destination addresses of a transaction's
outputs, in first-appearance order (the TypeScript builds a `Set` by
insertion). -/
def txAddresses (tx : ChainTx) : List String :=
  tx.vout.foldl (fun acc v =>
    acc ++ v.addresses.filter (fun a => !acc.contains a)) []

/-- `BitcoinMonitor.matchTransactionToPayment`: for each output address
present in the in-memory address cache, look the payment up by address
and accept it only when it is a BTC payment whose status is
`pending`. -/
def matchTransactionToPayment (cache : List String) (db : DB)
    (tx : ChainTx) : Option Payment :=
  (txAddresses tx).findSome? (fun address =>
    if cache.contains address then
      match findByCryptoAddress db address with
      | some payment =>
        if payment.crypto_currency = .BTC ∧ payment.status = .pending then
          some payment
        else none
      | none => none
    else none)

/-- The `blockchain_transactions` row `BitcoinMonitor.processTransaction`
builds from the output paying the payment's address. -/
def bitcoinTxRecord (tx : ChainTx) (payment : Payment)
    (matchedOutput : Vout) : TxRecord :=
  { payment_id := payment.id
    crypto_currency := .BTC
    txid := tx.txid
    to_address := payment.crypto_address
    amount := matchedOutput.value
    confirmations := tx.confirmations.getD 0
    block_height := none
    block_hash := tx.blockhash
    is_shielded := false
    memo := none }

/-- `BitcoinMonitor.processTransaction`: match the transaction to a
payment, skip when a record with this txid exists, extract the output
paying the payment's address, create the record, mark detected.  Errors
are caught and logged. -/
def processTransaction (cache : List String) (db : DB) (tx : ChainTx) : DB :=
  match matchTransactionToPayment cache db tx with
  | none => db
  | some payment =>
    match findByTxid db tx.txid with
    | some _ => db
    | none =>
      match tx.vout.find? (fun v =>
          v.addresses.contains payment.crypto_address) with
      | none => db
      | some matchedOutput =>
        match createTransaction db (bitcoinTxRecord tx payment matchedOutput) with
        | .error _ => db
        | .ok db1 =>
          markPaymentDetected db1 payment (bitcoinTxRecord tx payment matchedOutput)

/-! ## Confirmation update (shared shape of both monitors) -/

/-- `markPaymentConfirmed` (both monitors): mark the payment confirmed
and create the `payment.confirmed` webhook event.  When the repository
throws, the exception propagates back to the caller. -/
def markPaymentConfirmed (db : DB) (payment : Payment) : Except Unit DB :=
  match markAsConfirmed db payment.id with
  | .error e => .error e
  | .ok db1 =>
    .ok (createWebhookEvent db1
      { merchant_id := payment.merchant_id
        payment_id := payment.id
        event_type := .paymentConfirmed
        amount := payment.crypto_amount })

/-- `updatePaymentConfirmations` (both monitors): write the new
confirmation count, then, when `confirmations >= threshold` and the
payment passed in was not already `confirmed`, run
`markPaymentConfirmed` on the updated row.  Exceptions propagate (and
are caught per transaction by `updateAllConfirmations`), so an error
leaves the state committed so far. -/
def updatePaymentConfirmations (threshold : Nat) (db : DB)
    (payment : Payment) (confirmations : Nat) : DB :=
  match updatePaymentConfs db payment.id confirmations with
  | .error _ => db
  | .ok (db1, updatedPayment) =>
    if confirmations ≥ threshold ∧ payment.status ≠ .confirmed then
      match markPaymentConfirmed db1 updatedPayment with
      | .error _ => db1
      | .ok db2 => db2
    else db1

/-! ## Zcash monitor: startup cursor and poll tick -/

/-- The cursor assignment in `ZcashMonitor.initialize`:
`this.lastScannedBlockHeight = blockchainInfo.blocks`.  The function's
only input is the node's current block count — `initialize` reads no
persisted cursor (none is stored anywhere), so the cursor after startup
is the current chain tip regardless of what the previous process had
scanned. -/
def initializeCursor (blockchainInfoBlocks : Nat) : Nat :=
  blockchainInfoBlocks

/-- The cursor logic of `ZcashMonitor.pollBlockchain`: when the current
height exceeds the cursor, run the new-block work and advance the
cursor to the current height; otherwise leave the cursor alone.
Returns the new cursor and whether the new-block branch fired. -/
def pollCursorStep (cursor currentHeight : Nat) : Nat × Bool :=
  if currentHeight > cursor then (currentHeight, true) else (cursor, false)

/-! ## Monitor lifecycle: start / stop (both monitors) -/

/-- The lifecycle fields of `ZcashMonitor`: the running flag and the two
interval handles (`pollingInterval`, `addressCacheRefreshInterval`).
`nextHandle` supplies fresh timer handles for `setInterval`. -/
structure ZcashLifecycle where
  isRunning : Bool
  pollingInterval : Option Nat
  addressCacheRefreshInterval : Option Nat
  nextHandle : Nat
  deriving DecidableEq, Repr

/-- `ZcashMonitor.start`: early return when already running; otherwise
register the polling and cache-refresh intervals and set the running
flag. -/
def zcashStart (s : ZcashLifecycle) : ZcashLifecycle :=
  if s.isRunning then s
  else
    { isRunning := true
      pollingInterval := some s.nextHandle
      addressCacheRefreshInterval := some (s.nextHandle + 1)
      nextHandle := s.nextHandle + 2 }

/-- `ZcashMonitor.stop`: early return when not running; otherwise clear
the running flag and both intervals (each `clearInterval` followed by a
`null` assignment). -/
def zcashStop (s : ZcashLifecycle) : ZcashLifecycle :=
  if !s.isRunning then s
  else
    { s with
      isRunning := false
      pollingInterval := none
      addressCacheRefreshInterval := none }

/-- The lifecycle fields of `BitcoinMonitor`: running flag, the
cache-refresh and confirmation-update interval handles, and the ZMQ
connection flag. -/
structure BitcoinLifecycle where
  isRunning : Bool
  addressCacheRefreshInterval : Option Nat
  confirmationUpdateInterval : Option Nat
  zmqConnected : Bool
  nextHandle : Nat
  deriving DecidableEq, Repr

/-- `BitcoinMonitor.start`: early return when already running; otherwise
connect ZMQ, register both intervals, set the running flag. -/
def bitcoinStart (s : BitcoinLifecycle) : BitcoinLifecycle :=
  if s.isRunning then s
  else
    { isRunning := true
      addressCacheRefreshInterval := some s.nextHandle
      confirmationUpdateInterval := some (s.nextHandle + 1)
      zmqConnected := true
      nextHandle := s.nextHandle + 2 }

/-- `BitcoinMonitor.stop`: early return when not running; otherwise
clear the running flag, both intervals, and disconnect ZMQ. -/
def bitcoinStop (s : BitcoinLifecycle) : BitcoinLifecycle :=
  if !s.isRunning then s
  else
    { s with
      isRunning := false
      addressCacheRefreshInterval := none
      confirmationUpdateInterval := none
      zmqConnected := false }

/-! ## Zcash monitor: viewing-key import -/

/-- The arguments of one `z_importviewingkey` RPC call. -/
structure ViewKeyImportCall where
  key : String
  rescan : String
  startHeight : Nat
  deriving DecidableEq, Repr

/-- `ZcashMonitor.ensureViewKeysImported`: iterate over the shielded
address cache (address, viewKey pairs); skip addresses that are
already imported and addresses with an empty view key; otherwise call
`z_importViewingKey(viewKey, 'no', lastScannedBlockHeight)` — the
rescan argument is the literal `'no'` and `startHeight` is the current
scan cursor.  On RPC success the address joins the imported set; on
failure it does not (so a later refresh retries).  `rpcOk` tells which
of the calls the node accepts.  Returns the new imported set and the
list of issued RPC calls. -/
def ensureViewKeysImported (lastScannedBlockHeight : Nat)
    (rpcOk : String → Bool) (shieldedCache : List (String × String))
    (viewKeysImported : List String) :
    List String × List ViewKeyImportCall :=
  shieldedCache.foldl (fun acc entry =>
    let address := entry.1
    let viewKey := entry.2
    if acc.1.contains address then acc
    else if viewKey = "" then acc
    else
      let call : ViewKeyImportCall :=
        { key := viewKey, rescan := "no", startHeight := lastScannedBlockHeight }
      if rpcOk address then (acc.1 ++ [address], acc.2 ++ [call])
      else (acc.1, acc.2 ++ [call]))
    (viewKeysImported, [])

/-! ## Base RPC client: retry loop

`BlockchainRpcClient.call` attempts the request in a `while attempt <
maxRetries` loop.  On success it returns; on an error for which
`shouldNotRetry` holds it throws immediately; otherwise, if another
attempt remains, it sleeps `retryDelayMs * 2 ^ (attempt - 1)` and
retries; once attempts are exhausted it throws the last error.
`RpcConfig` defaults: `maxRetries = 3`, `retryDelayMs = 1000`. -/

/-- The outcome the node produces for one attempt: a successful result,
a structured node error (`response.data.error` with a numeric code), or
a transport/HTTP failure (an axios error, which `shouldNotRetry` never
matches because it is not an `RpcError`). -/
inductive RpcOutcome
  | ok (v : Nat)
  | nodeErr (code : Int)
  | transport
  deriving DecidableEq, Repr

/-- `BlockchainRpcClient.shouldNotRetry` on a structured node error:
true exactly for `-32601` (method not found), `-32602` (invalid
params), `-5` (transaction not found) and `-8` (block not found). -/
def terminalCode (c : Int) : Bool :=
  c = -32601 || c = -32602 || c = -5 || c = -8

/-- What one execution of `call` did: the value returned or error
thrown (`some code` for a node error, `none` for a transport failure or
a null last error), the number of attempts performed, and the backoff
delays slept between attempts. -/
structure CallTrace where
  result : Except (Option Int) Nat
  attempts : Nat
  delays : List Nat
  deriving Repr

/-- The retry loop of `BlockchainRpcClient.call`, structured on the
number of remaining attempts (`maxRetries - attempt`).  `attempt` is the
number of attempts already made; `o a` is the node's response to the
`a`-th attempt (1-indexed, matching the incremented TypeScript
`attempt`). -/
def callAux (d : Nat) (o : Nat → RpcOutcome) :
    Nat → Nat → List Nat → Option Int → CallTrace
  | 0, attempt, delays, lastErr =>
    { result := .error lastErr, attempts := attempt, delays := delays }
  | remaining + 1, attempt, delays, _ =>
    let a := attempt + 1
    match o a with
    | .ok v => { result := .ok v, attempts := a, delays := delays }
    | .nodeErr c =>
      if terminalCode c then
        { result := .error (some c), attempts := a, delays := delays }
      else if remaining = 0 then
        { result := .error (some c), attempts := a, delays := delays }
      else
        callAux d o remaining a (delays ++ [d * 2 ^ (a - 1)]) (some c)
    | .transport =>
      if remaining = 0 then
        { result := .error none, attempts := a, delays := delays }
      else
        callAux d o remaining a (delays ++ [d * 2 ^ (a - 1)]) none

/-- `BlockchainRpcClient.call` with retry config `maxRetries = N`,
`retryDelayMs = d`, run against the response sequence `o`. -/
def rpcCall (d N : Nat) (o : Nat → RpcOutcome) : CallTrace :=
  callAux d o N 0 [] none

/-! ## Memo codec (`ZcashRpcClient.encodeMemo` / `decodeMemo`)

Modelled at the byte level: a memo is its UTF-8 encoding (TypeScript
computes `Buffer.from(memo, 'utf8')` immediately), and hex strings are
lists of characters. -/

/-- Lowercase hex digit of a nibble, as `Buffer.toString('hex')`
produces. -/
def hexDigitChar (n : Nat) : Char :=
  if n < 10 then Char.ofNat (48 + n) else Char.ofNat (87 + n)

/-- Hex encoding of one byte: high nibble then low nibble. -/
def byteToHex (b : Nat) : List Char :=
  [hexDigitChar (b / 16), hexDigitChar (b % 16)]

/-- `Buffer.toString('hex')`: hex encoding of a byte sequence. -/
def bytesToHex (bs : List Nat) : List Char :=
  (bs.map byteToHex).flatten

/-- Numeric value of a hex digit character (0 for non-hex input, as
`Buffer.from(-, 'hex')` is only applied to well-formed hex here). -/
def hexCharVal (c : Char) : Nat :=
  if 48 ≤ c.toNat ∧ c.toNat ≤ 57 then c.toNat - 48
  else if 97 ≤ c.toNat ∧ c.toNat ≤ 102 then c.toNat - 87
  else 0

/-- `Buffer.from(hex, 'hex')`: decode hex character pairs to bytes. -/
def hexToBytes : List Char → List Nat
  | c1 :: c2 :: rest => (hexCharVal c1 * 16 + hexCharVal c2) :: hexToBytes rest
  | _ => []

/-- `ZcashRpcClient.encodeMemo`: the empty memo returns the empty hex
string (before any length check); an encoding longer than 512 bytes
throws `Memo exceeds 512 byte limit`; otherwise the bytes are
hex-encoded. -/
def encodeMemo (memoBytes : List Nat) : Except String (List Char) :=
  if memoBytes = [] then .ok []
  else if memoBytes.length > 512 then .error "Memo exceeds 512 byte limit"
  else .ok (bytesToHex memoBytes)

/-- `ZcashRpcClient.decodeMemo`: hex-decode and strip all NUL bytes
(`.toString('utf8').replace(/\0/g, '')`; a NUL character in UTF-8 is
exactly the 0 byte). -/
def decodeMemo (memoHex : List Char) : List Nat :=
  (hexToBytes memoHex).filter (fun b => b ≠ 0)

/-! ## Concrete states used to evaluate the code at failing inputs -/

/-- A ZEC shielded payment that is already `confirmed`. -/
def confirmedZecPayment : Payment :=
  { id := 1, merchant_id := 10, order_id := 20, crypto_currency := .ZEC
    crypto_address := "zaddr1", crypto_amount := "2.0", status := .confirmed
    confirmations := 6, txid := some "t0", detected_at := some 5
    confirmed_at := some 9 }

/-- Database holding only `confirmedZecPayment`, with no transaction
records and no events. -/
def dbConfirmedZec : DB :=
  { payments := [confirmedZecPayment], transactions := [], events := []
    now := 100 }

/-- A fresh `z_listreceivedbyaddress` entry for a txid never seen
before, whose received amount (1.5) differs from the payment's expected
amount (2.0). -/
def entryNew : ReceivedEntry := { txid := "t1", amount := "1.5", memo := none }

/-- The raw transaction behind `entryNew` (shielded: no transparent
outputs visible). -/
def txNew : ChainTx :=
  { txid := "t1", vout := [], blockhash := none, confirmations := some 0 }

/-- A ZEC shielded payment still `pending`, expecting 2.0 ZEC. -/
def pendingZecPayment : Payment :=
  { id := 1, merchant_id := 10, order_id := 20, crypto_currency := .ZEC
    crypto_address := "zaddr1", crypto_amount := "2.0", status := .pending
    confirmations := 0, txid := none, detected_at := none
    confirmed_at := none }

/-- Database holding only `pendingZecPayment`. -/
def dbPendingZec : DB :=
  { payments := [pendingZecPayment], transactions := [], events := []
    now := 100 }

/-- A ZEC payment in the `detected` state, used to exercise the
confirmation-update sweep. -/
def detectedZecPayment : Payment :=
  { id := 1, merchant_id := 10, order_id := 20, crypto_currency := .ZEC
    crypto_address := "zaddr1", crypto_amount := "2.0", status := .detected
    confirmations := 3, txid := some "t1", detected_at := some 5
    confirmed_at := none }

/-- Database holding only `detectedZecPayment`. -/
def dbDetectedZec : DB :=
  { payments := [detectedZecPayment], transactions := [], events := []
    now := 100 }

/-! ## Helper lemmas -/

theorem hexCharVal_hexDigitChar : ∀ n, n < 16 → hexCharVal (hexDigitChar n) = n := by
  decide

theorem hexToBytes_bytesToHex (bs : List Nat) (h : ∀ b ∈ bs, b < 256) :
    hexToBytes (bytesToHex bs) = bs := by
  induction bs with
  | nil => rfl
  | cons b bs ih =>
    have hb : b < 256 := h b (List.mem_cons_self _ _)
    have h1 : b / 16 < 16 := by omega
    have h2 : b % 16 < 16 := Nat.mod_lt _ (by norm_num)
    have hexp : bytesToHex (b :: bs) =
        hexDigitChar (b / 16) :: hexDigitChar (b % 16) :: bytesToHex bs := by
      simp [bytesToHex, byteToHex]
    rw [hexp, hexToBytes, hexCharVal_hexDigitChar _ h1, hexCharVal_hexDigitChar _ h2,
      ih (fun x hx => h x (List.mem_cons_of_mem _ hx))]
    congr 1
    omega

theorem markAsDetected_ok_transactions {db : DB} {id : Nat} {db' : DB}
    (h : markAsDetected db id = .ok db') : db'.transactions = db.transactions := by
  unfold markAsDetected at h
  by_cases hc : db.payments.any (fun p => p.id = id)
  · rw [if_pos hc] at h; injection h with h'; subst h'; rfl
  · rw [if_neg hc] at h; cases h

theorem linkTransaction_ok_transactions {db : DB} {id : Nat} {txid : String} {db' : DB}
    (h : linkTransaction db id txid = .ok db') : db'.transactions = db.transactions := by
  unfold linkTransaction at h
  by_cases hc : db.payments.any (fun p => p.id = id)
  · rw [if_pos hc] at h; injection h with h'; subst h'; rfl
  · rw [if_neg hc] at h; cases h

theorem markPaymentDetected_transactions (db : DB) (p : Payment) (t : TxRecord) :
    (markPaymentDetected db p t).transactions = db.transactions := by
  unfold markPaymentDetected
  cases hm : markAsDetected db p.id with
  | error e => rfl
  | ok db1 =>
    have h1 := markAsDetected_ok_transactions hm
    dsimp only
    cases hl : linkTransaction db1 p.id t.txid with
    | error e => exact h1
    | ok db2 =>
      have h2 := linkTransaction_ok_transactions hl
      dsimp only [createWebhookEvent]
      exact h2.trans h1

theorem findByTxid_eq_of_transactions {db1 db2 : DB}
    (h : db1.transactions = db2.transactions) (x : String) :
    findByTxid db1 x = findByTxid db2 x := by
  unfold findByTxid; rw [h]

theorem find?_append_of_none {α : Type} (p : α → Bool) (l1 l2 : List α)
    (h : l1.find? p = none) : (l1 ++ l2).find? p = l2.find? p := by
  induction l1 with
  | nil => rfl
  | cons a l ih =>
    cases hpa : p a
    · rw [List.find?_cons_of_neg _ (by simp [hpa])] at h
      rw [List.cons_append, List.find?_cons_of_neg _ (by simp [hpa])]
      exact ih h
    · rw [List.find?_cons_of_pos _ (by simp [hpa])] at h
      cases h

theorem createTransaction_ok_of_new {db : DB} {t : TxRecord}
    (hnone : findByTxid db t.txid = none) :
    createTransaction db t = .ok { db with transactions := db.transactions ++ [t] } := by
  unfold createTransaction
  rw [if_neg]
  intro hany
  rw [List.any_eq_true] at hany
  obtain ⟨u, hu, hp⟩ := hany
  unfold findByTxid at hnone
  rw [List.find?_eq_none] at hnone
  have := hnone u hu
  simp only [decide_eq_true_eq] at hp this
  exact this hp.2.1

theorem findByTxid_append_self {db : DB} {t : TxRecord}
    (hnone : findByTxid db t.txid = none) :
    findByTxid { db with transactions := db.transactions ++ [t] } t.txid = some t := by
  unfold findByTxid at *
  rw [find?_append_of_none _ _ _ hnone]
  simp [List.find?_cons]

theorem findByTxid_append_self' (db : DB) (t : TxRecord) (x : String)
    (ht : t.txid = x) (hnone : findByTxid db x = none) :
    findByTxid { db with transactions := db.transactions ++ [t] } x = some t := by
  subst ht; exact findByTxid_append_self hnone

theorem processZcashTransaction_skip (db : DB) (tx : ChainTx) (payment : Payment)
    (isShielded : Bool) (memo : Option String)
    (h : findByTxid db tx.txid ≠ none) :
    processZcashTransaction db tx payment isShielded memo = db := by
  unfold processZcashTransaction
  cases hf : findByTxid db tx.txid with
  | some t => rfl
  | none => exact absurd hf h

theorem processZcashTransaction_cases (db : DB) (tx : ChainTx) (payment : Payment)
    (isShielded : Bool) (memo : Option String) :
    processZcashTransaction db tx payment isShielded memo = db ∨
      findByTxid (processZcashTransaction db tx payment isShielded memo) tx.txid ≠ none := by
  unfold processZcashTransaction
  cases hf : findByTxid db tx.txid with
  | some t => exact .inl rfl
  | none =>
    right
    dsimp only
    rw [createTransaction_ok_of_new (t := zcashTxRecord tx payment isShielded memo) hf]
    dsimp only
    rw [findByTxid_eq_of_transactions (markPaymentDetected_transactions _ _ _) tx.txid]
    rw [findByTxid_append_self' db (zcashTxRecord tx payment isShielded memo)
      tx.txid rfl hf]
    simp

theorem processTransaction_skip (cache : List String) (db : DB) (tx : ChainTx)
    (h : findByTxid db tx.txid ≠ none) :
    processTransaction cache db tx = db := by
  unfold processTransaction
  cases hm : matchTransactionToPayment cache db tx with
  | none => rfl
  | some payment =>
    dsimp only
    cases hf : findByTxid db tx.txid with
    | some t => rfl
    | none => exact absurd hf h

theorem processTransaction_cases (cache : List String) (db : DB) (tx : ChainTx) :
    processTransaction cache db tx = db ∨
      findByTxid (processTransaction cache db tx) tx.txid ≠ none := by
  unfold processTransaction
  cases hm : matchTransactionToPayment cache db tx with
  | none => exact .inl rfl
  | some payment =>
    dsimp only
    cases hf : findByTxid db tx.txid with
    | some t => exact .inl rfl
    | none =>
      dsimp only
      cases hv : tx.vout.find? (fun v => v.addresses.contains payment.crypto_address) with
      | none => exact .inl rfl
      | some matchedOutput =>
        right
        dsimp only
        rw [createTransaction_ok_of_new (t := bitcoinTxRecord tx payment matchedOutput) hf]
        dsimp only
        rw [findByTxid_eq_of_transactions (markPaymentDetected_transactions _ _ _) tx.txid]
        rw [findByTxid_append_self' db (bitcoinTxRecord tx payment matchedOutput)
          tx.txid rfl hf]
        simp

theorem callAux_attempts_le (d : Nat) (o : Nat → RpcOutcome) :
    ∀ (r attempt : Nat) (delays : List Nat) (lastErr : Option Int),
      (callAux d o r attempt delays lastErr).attempts ≤ attempt + r := by
  intro r
  induction r with
  | zero => intro attempt delays lastErr; simp [callAux]
  | succ r ih =>
    intro attempt delays lastErr
    rw [callAux]
    cases h : o (attempt + 1) with
    | ok v => simp
    | nodeErr c =>
      by_cases ht : terminalCode c
      · simp [ht]
      · by_cases hr : r = 0
        · simp [ht, hr]
        · simp only [ht, hr, Bool.false_eq_true, if_false, ite_false]
          have := ih (attempt + 1) (delays ++ [d * 2 ^ (attempt + 1 - 1)]) (some c)
          omega
    | transport =>
      by_cases hr : r = 0
      · simp [hr]
      · simp only [hr, if_false, ite_false]
        have := ih (attempt + 1) (delays ++ [d * 2 ^ (attempt + 1 - 1)]) none
        omega

theorem callAux_attempts_ge (d : Nat) (o : Nat → RpcOutcome) :
    ∀ (r attempt : Nat) (delays : List Nat) (lastErr : Option Int),
      1 ≤ r → attempt + 1 ≤ (callAux d o r attempt delays lastErr).attempts := by
  intro r
  induction r with
  | zero => intro attempt delays lastErr h; omega
  | succ r ih =>
    intro attempt delays lastErr _
    rw [callAux]
    cases h : o (attempt + 1) with
    | ok v => simp
    | nodeErr c =>
      by_cases ht : terminalCode c
      · simp [ht]
      · by_cases hr : r = 0
        · simp [ht, hr]
        · simp only [ht, hr, Bool.false_eq_true, if_false, ite_false]
          have := ih (attempt + 1) (delays ++ [d * 2 ^ (attempt + 1 - 1)]) (some c) (by omega)
          omega
    | transport =>
      by_cases hr : r = 0
      · simp [hr]
      · simp only [hr, if_false, ite_false]
        have := ih (attempt + 1) (delays ++ [d * 2 ^ (attempt + 1 - 1)]) none (by omega)
        omega

theorem range_pow_shift (d attempt k : Nat) :
    (List.range (k + 1)).map (fun i => d * 2 ^ (attempt + i)) =
      d * 2 ^ attempt :: (List.range k).map (fun i => d * 2 ^ (attempt + 1 + i)) := by
  rw [List.range_succ_eq_map, List.map_cons, List.map_map]
  refine List.cons_eq_cons.mpr ⟨by norm_num, List.map_congr_left ?_⟩
  intro i _
  show d * 2 ^ (attempt + (i + 1)) = d * 2 ^ (attempt + 1 + i)
  have hsh : attempt + (i + 1) = attempt + 1 + i := by omega
  rw [hsh]

theorem callAux_delays (d : Nat) (o : Nat → RpcOutcome) :
    ∀ (r attempt : Nat) (delays : List Nat) (lastErr : Option Int),
      (callAux d o r attempt delays lastErr).delays =
        delays ++
          (List.range ((callAux d o r attempt delays lastErr).attempts - 1 - attempt)).map
            (fun i => d * 2 ^ (attempt + i)) := by
  intro r
  induction r with
  | zero =>
    intro attempt delays lastErr
    simp only [callAux]
    have h0 : attempt - 1 - attempt = 0 := by omega
    rw [h0]
    simp
  | succ r ih =>
    intro attempt delays lastErr
    rw [callAux]
    cases h : o (attempt + 1) with
    | ok v =>
      have h0 : attempt + 1 - 1 - attempt = 0 := by omega
      simp [h0]
    | nodeErr c =>
      by_cases ht : terminalCode c
      · have h0 : attempt + 1 - 1 - attempt = 0 := by omega
        simp [ht, h0]
      · by_cases hr : r = 0
        · have h0 : attempt + 1 - 1 - attempt = 0 := by omega
          simp [ht, hr, h0]
        · simp only [ht, hr, Bool.false_eq_true, if_false, ite_false]
          rw [ih]
          have hge := callAux_attempts_ge d o r (attempt + 1)
            (delays ++ [d * 2 ^ (attempt + 1 - 1)]) (some c) (by omega)
          set A := (callAux d o r (attempt + 1)
            (delays ++ [d * 2 ^ (attempt + 1 - 1)]) (some c)).attempts with hA
          have hk : A - 1 - attempt = (A - 1 - (attempt + 1)) + 1 := by omega
          rw [hk, range_pow_shift]
          simp
    | transport =>
      by_cases hr : r = 0
      · have h0 : attempt + 1 - 1 - attempt = 0 := by omega
        simp [hr, h0]
      · simp only [hr, if_false, ite_false]
        rw [ih]
        have hge := callAux_attempts_ge d o r (attempt + 1)
          (delays ++ [d * 2 ^ (attempt + 1 - 1)]) none (by omega)
        set A := (callAux d o r (attempt + 1)
          (delays ++ [d * 2 ^ (attempt + 1 - 1)]) none).attempts with hA
        have hk : A - 1 - attempt = (A - 1 - (attempt + 1)) + 1 := by omega
        rw [hk, range_pow_shift]
        simp

theorem callAux_terminal (d : Nat) (o : Nat → RpcOutcome) (r attempt : Nat)
    (delays : List Nat) (lastErr : Option Int) (c : Int)
    (hc : terminalCode c = true) (ho : o (attempt + 1) = .nodeErr c) :
    callAux d o (r + 1) attempt delays lastErr =
      { result := .error (some c), attempts := attempt + 1, delays := delays } := by
  rw [callAux, ho]
  simp [hc]

theorem find?_update_by_id (l : List Payment) (id : Nat) (f : Payment → Payment)
    (hf : ∀ p, (f p).id = p.id) (payment : Payment)
    (h : l.find? (fun p => p.id = id) = some payment) :
    (l.map (fun p => if p.id = id then f p else p)).find? (fun p => p.id = id)
      = some (f payment) := by
  induction l with
  | nil => simp at h
  | cons a l ih =>
    by_cases ha : a.id = id
    · rw [List.find?_cons_of_pos _ (by simpa using ha)] at h
      injection h with h'
      subst h'
      simp only [List.map_cons, if_pos ha]
      exact List.find?_cons_of_pos _ (by simp [hf, ha])
    · rw [List.find?_cons_of_neg _ (by simpa using ha)] at h
      simp only [List.map_cons, if_neg ha]
      rw [List.find?_cons_of_neg _ (by simpa using ha)]
      exact ih h

theorem any_of_find?_some {l : List Payment} {id : Nat} {payment : Payment}
    (h : l.find? (fun p => p.id = id) = some payment) :
    l.any (fun p => p.id = id) = true := by
  have hp := List.find?_some h
  have hmem := List.mem_of_find?_eq_some h
  exact List.any_eq_true.mpr ⟨payment, hmem, hp⟩

/-! ## Claim theorems -/

/-- C1 (cursor resumes from the persisted cursor across restarts):
evaluation of `ZcashMonitor.initialize` against this claim.  The
startup cursor assignment is a function of the node's current block
count alone — `initializeCursor tip = tip` for every tip, and no
persisted cursor is even an input.  Concretely, restarting at chain
tip 150 after having fully processed only up to block 100 puts the
cursor at 150, and the next poll at tip 150 does not fire the
new-block branch, so blocks 101–150 are skipped, contradicting the
claim that startup resumes from the persisted cursor. -/
theorem zcash_cursor_startup_C1 :
    (∀ tip, initializeCursor tip = tip) ∧
    pollCursorStep (initializeCursor 150) 150 = (150, false) :=
  ⟨fun _ => rfl, rfl⟩

/-- C2: the match-and-detect routine of each monitor is idempotent —
running `ZcashMonitor.processZcashTransaction` or
`BitcoinMonitor.processTransaction` a second time on the same inputs,
from the state produced by the first run, leaves the database state
(payments, transaction records, and events alike) unchanged. -/
theorem match_and_detect_idempotent_C2 :
    (∀ (db : DB) (tx : ChainTx) (payment : Payment) (isShielded : Bool)
        (memo : Option String),
      processZcashTransaction
          (processZcashTransaction db tx payment isShielded memo)
          tx payment isShielded memo
        = processZcashTransaction db tx payment isShielded memo) ∧
    (∀ (cache : List String) (db : DB) (tx : ChainTx),
      processTransaction cache (processTransaction cache db tx) tx
        = processTransaction cache db tx) := by
  constructor
  · intro db tx payment isShielded memo
    rcases processZcashTransaction_cases db tx payment isShielded memo with h | h
    · rw [h]; exact h
    · exact processZcashTransaction_skip _ tx payment isShielded memo h
  · intro cache db tx
    rcases processTransaction_cases cache db tx with h | h
    · rw [h]; exact h
    · exact processTransaction_skip cache _ tx h

/-- C3 (a payment whose status is neither pending nor detected is left
untouched): evaluation of the Zcash monitor at a failing input.  For a
`confirmed` ZEC payment still present in the shielded address cache and
a fresh txid, the per-entry scan body performs no status check: it
creates a transaction record, emits a `payment.detected` event, and
resets the payment's status from `confirmed` back to `detected` —
moving a payment out of the confirmed state, which the claim says never
happens. -/
theorem zcash_ignores_status_C3 :
    confirmedZecPayment.status = .confirmed ∧
    (processShieldedEntry dbConfirmedZec 1 entryNew txNew).transactions.length = 1 ∧
    (findPaymentById (processShieldedEntry dbConfirmedZec 1 entryNew txNew) 1).map
      Payment.status = some .detected ∧
    (processShieldedEntry dbConfirmedZec 1 entryNew txNew).events.map
      WebhookEvent.event_type = [.paymentDetected] := by
  decide

/-- C4 (state-transition writes are status-guarded): evaluation of the
repository at a failing input.  `PaymentRepository.markAsDetected`
updates `WHERE id = $1` with no status guard, so it rewrites a
`confirmed` payment to `detected`; `markAsConfirmed` likewise rewrites
a `pending` payment straight to `confirmed`.  The claim says these
writes fire only from `pending` (resp. `detected`) and otherwise leave
the row unchanged. -/
theorem status_guard_missing_C4 :
    dbConfirmedZec.payments.map Payment.status = [.confirmed] ∧
    (markAsDetected dbConfirmedZec 1).map
      (fun db => db.payments.map Payment.status) = .ok [.detected] ∧
    dbPendingZec.payments.map Payment.status = [.pending] ∧
    (markAsConfirmed dbPendingZec 1).map
      (fun db => db.payments.map Payment.status) = .ok [.confirmed] := by
  refine ⟨by decide, by rfl, by decide, by rfl⟩

/-- C5 (shielded amount comes from the `z_listReceivedByAddress`
entry): evaluation at a failing input.  For a shielded entry whose
received amount is 1.5 while the payment expects 2.0,
`processZcashTransaction` records amount 2.0 — the payment's expected
`crypto_amount` — not the entry's amount, contradicting the claim. -/
theorem shielded_amount_expected_C5 :
    (processShieldedEntry dbPendingZec 1 entryNew txNew).transactions.map
      TxRecord.amount = ["2.0"] ∧
    entryNew.amount = "1.5" ∧
    pendingZecPayment.crypto_amount = "2.0" := by
  decide

/-- C6 (viewing keys are imported with `startHeight` equal to the key's
birthday): evaluation at a failing input.  `ensureViewKeysImported`
issues `z_importViewingKey(key, 'no', lastScannedBlockHeight)` — the
rescan argument is the literal `'no'` and the start height is the
current scan cursor (the tip, here 150); the key's birthday is not an
input of the function at all.  The failure half of the claim does hold:
with the RPC failing, the address stays out of the imported set. -/
theorem viewkey_import_at_tip_C6 :
    (ensureViewKeysImported 150 (fun _ => true) [("zaddrA", "vkA")] []).2 =
      [{ key := "vkA", rescan := "no", startHeight := 150 }] ∧
    (ensureViewKeysImported 150 (fun _ => false) [("zaddrA", "vkA")] []).1 = [] ∧
    (ensureViewKeysImported 150 (fun _ => false) [("zaddrA", "vkA")] []).2 =
      [{ key := "vkA", rescan := "no", startHeight := 150 }] :=
  ⟨rfl, rfl, rfl⟩

/-- C7: the RPC retry loop performs at most `maxRetries` attempts
(default 3), the backoff delays slept between attempts start at
`retryDelayMs` (default 1000) and double per attempt
(`retryDelayMs * 2 ^ (attempt - 1)`), and a node error whose code is
terminal (method not found −32601, invalid params −32602, transaction
not found −5, block not found −8) on the first attempt is raised
immediately: one attempt, no delays. -/
theorem rpc_retry_C7 (d N : Nat) (o : Nat → RpcOutcome) :
    (rpcCall d N o).attempts ≤ N ∧
    (rpcCall d N o).delays =
      (List.range ((rpcCall d N o).attempts - 1)).map (fun i => d * 2 ^ i) ∧
    ∀ c : Int, terminalCode c = true → o 1 = .nodeErr c → 1 ≤ N →
      rpcCall d N o =
        { result := .error (some c), attempts := 1, delays := [] } := by
  refine ⟨?_, ?_, ?_⟩
  · have := callAux_attempts_le d o N 0 [] none
    simpa [rpcCall] using this
  · have := callAux_delays d o N 0 [] none
    simpa [rpcCall] using this
  · intro c hc ho hN
    obtain ⟨r, rfl⟩ : ∃ r, N = r + 1 := ⟨N - 1, by omega⟩
    unfold rpcCall
    exact callAux_terminal d o r 0 [] none c hc (by simpa using ho)

/-- C7 witness: with the default config (3 attempts, 1s initial delay)
and a node answering `-5` (transaction not found) on the first attempt,
the call raises immediately after one attempt with no backoff. -/
theorem rpc_retry_C7_witness :
    rpcCall 1000 3 (fun k => if k = 1 then RpcOutcome.nodeErr (-5) else RpcOutcome.ok 7) =
      { result := .error (some (-5)), attempts := 1, delays := [] } :=
  (rpc_retry_C7 1000 3 _).2.2 (-5) (by decide) (by norm_num) (by norm_num)

/-- C8: the memo codec accepts every memo whose UTF-8 encoding is at
most 512 bytes (encoding it to hex), `encodeMemo` throws exactly when
the encoding exceeds 512 bytes, and for every memo of at most 512 bytes
containing no NUL byte, decoding the encoding returns the memo
(`decodeMemo` strips NUL bytes after hex-decoding). -/
theorem memo_codec_C8 (m : List Nat) (hlen : m.length ≤ 512)
    (hbyte : ∀ b ∈ m, b < 256) (hnul : 0 ∉ m) :
    encodeMemo m = .ok (bytesToHex m) ∧
    decodeMemo (bytesToHex m) = m ∧
    ∀ bs : List Nat, 512 < bs.length →
      encodeMemo bs = .error "Memo exceeds 512 byte limit" := by
  refine ⟨?_, ?_, ?_⟩
  · unfold encodeMemo
    by_cases hm : m = []
    · subst hm; rfl
    · rw [if_neg hm, if_neg (by omega)]
  · unfold decodeMemo
    rw [hexToBytes_bytesToHex m hbyte]
    apply List.filter_eq_self.mpr
    intro a ha
    simp only [ne_eq, decide_eq_true_eq]
    exact fun h0 => hnul (h0 ▸ ha)
  · intro bs hbs
    unfold encodeMemo
    have hne : bs ≠ [] := by intro hcon; subst hcon; simp at hbs
    rw [if_neg hne, if_pos (by omega)]

/-- C8 witness: a 512-byte memo (512 times the byte 97) is accepted and
round-trips; a 513-byte memo is rejected at encode time. -/
theorem memo_codec_C8_witness :
    encodeMemo (List.replicate 512 97) = .ok (bytesToHex (List.replicate 512 97)) ∧
    decodeMemo (bytesToHex (List.replicate 512 97)) = List.replicate 512 97 ∧
    encodeMemo (List.replicate 513 97) = .error "Memo exceeds 512 byte limit" := by
  have h := memo_codec_C8 (List.replicate 512 97)
    (by rw [List.length_replicate])
    (by intro b hb; rw [List.eq_of_mem_replicate hb]; norm_num)
    (by intro hmem; have := List.eq_of_mem_replicate hmem; omega)
  exact ⟨h.1, h.2.1, h.2.2 _ (by rw [List.length_replicate]; norm_num)⟩

/-- C9: for a `detected` payment seen by the confirmation-update sweep,
a confirmation count of exactly `threshold − 1` leaves the status at
`detected` and adds no event, while a count of exactly `threshold`
transitions the payment to `confirmed`, sets `confirmed_at` to the
current time, and creates a `payment.confirmed` event. -/
theorem confirmation_threshold_C9 (threshold : Nat) (db : DB) (payment : Payment)
    (hfind : findPaymentById db payment.id = some payment)
    (hstatus : payment.status = .detected) (hthr : 1 ≤ threshold) :
    ((findPaymentById (updatePaymentConfirmations threshold db payment (threshold - 1))
        payment.id).map Payment.status = some .detected ∧
      (updatePaymentConfirmations threshold db payment (threshold - 1)).events = db.events) ∧
    ((findPaymentById (updatePaymentConfirmations threshold db payment threshold)
        payment.id).map Payment.status = some .confirmed ∧
      (findPaymentById (updatePaymentConfirmations threshold db payment threshold)
        payment.id).map Payment.confirmed_at = some (some db.now) ∧
      (updatePaymentConfirmations threshold db payment threshold).events =
        db.events ++ [{ merchant_id := payment.merchant_id,
                        payment_id := payment.id,
                        event_type := .paymentConfirmed,
                        amount := payment.crypto_amount }]) := by
  unfold findPaymentById at hfind
  have hupd : ∀ confs : Nat,
      updatePaymentConfs db payment.id confs =
        .ok ({ db with payments := db.payments.map (fun p =>
            if p.id = payment.id then { p with confirmations := confs } else p) },
          { payment with confirmations := confs }) := by
    intro confs
    unfold updatePaymentConfs
    have hf1 := find?_update_by_id db.payments payment.id
      (fun p => { p with confirmations := confs }) (fun p => rfl) payment hfind
    simp only [hf1]
  constructor
  · unfold updatePaymentConfirmations
    rw [hupd (threshold - 1)]
    dsimp only
    rw [if_neg (show ¬(threshold - 1 ≥ threshold ∧ payment.status ≠ .confirmed) from
      fun hcon => by rcases hcon with ⟨h1, _⟩; omega)]
    constructor
    · unfold findPaymentById
      rw [find?_update_by_id db.payments payment.id
        (fun p => { p with confirmations := threshold - 1 }) (fun p => rfl) payment hfind]
      simp [hstatus]
    · rfl
  · unfold updatePaymentConfirmations
    rw [hupd threshold]
    dsimp only
    rw [if_pos ⟨le_refl threshold, by rw [hstatus]; decide⟩]
    have hfind1 : (db.payments.map (fun p =>
        if p.id = payment.id then { p with confirmations := threshold } else p)).find?
          (fun p => p.id = payment.id) = some { payment with confirmations := threshold } :=
      find?_update_by_id db.payments payment.id
        (fun p => { p with confirmations := threshold }) (fun p => rfl) payment hfind
    unfold markPaymentConfirmed markAsConfirmed
    dsimp only
    rw [if_pos (any_of_find?_some hfind1)]
    dsimp only [createWebhookEvent]
    refine ⟨?_, ?_, rfl⟩
    · unfold findPaymentById
      rw [find?_update_by_id _ payment.id
        (fun p => { p with status := .confirmed, confirmed_at := some db.now })
        (fun p => rfl) { payment with confirmations := threshold } hfind1]
      simp
    · unfold findPaymentById
      rw [find?_update_by_id _ payment.id
        (fun p => { p with status := .confirmed, confirmed_at := some db.now })
        (fun p => rfl) { payment with confirmations := threshold } hfind1]
      simp

/-- C9 witness: with threshold 6 and the concrete detected payment, 5
confirmations leave it detected with no event, and 6 confirmations
confirm it, set `confirmed_at`, and create the `payment.confirmed`
event. -/
theorem confirmation_threshold_C9_witness :
    ((findPaymentById (updatePaymentConfirmations 6 dbDetectedZec detectedZecPayment (6 - 1))
        detectedZecPayment.id).map Payment.status = some .detected ∧
      (updatePaymentConfirmations 6 dbDetectedZec detectedZecPayment (6 - 1)).events =
        dbDetectedZec.events) ∧
    ((findPaymentById (updatePaymentConfirmations 6 dbDetectedZec detectedZecPayment 6)
        detectedZecPayment.id).map Payment.status = some .confirmed ∧
      (findPaymentById (updatePaymentConfirmations 6 dbDetectedZec detectedZecPayment 6)
        detectedZecPayment.id).map Payment.confirmed_at = some (some dbDetectedZec.now) ∧
      (updatePaymentConfirmations 6 dbDetectedZec detectedZecPayment 6).events =
        dbDetectedZec.events ++
          [{ merchant_id := detectedZecPayment.merchant_id,
             payment_id := detectedZecPayment.id,
             event_type := .paymentConfirmed,
             amount := detectedZecPayment.crypto_amount }]) :=
  confirmation_threshold_C9 6 dbDetectedZec detectedZecPayment (by decide) (by decide)
    (by norm_num)

/-- C10: monitor start and stop are idempotent at the public interface
for both monitors — `start` on a running monitor and `stop` on a
stopped monitor change nothing, and after any `start` followed by
`stop` every interval handle is null and the monitor reports not
running. -/
theorem start_stop_C10 (zs : ZcashLifecycle) (bs : BitcoinLifecycle) :
    (zs.isRunning = true → zcashStart zs = zs) ∧
    (zs.isRunning = false → zcashStop zs = zs) ∧
    (zcashStop (zcashStart zs)).pollingInterval = none ∧
    (zcashStop (zcashStart zs)).addressCacheRefreshInterval = none ∧
    (zcashStop (zcashStart zs)).isRunning = false ∧
    (bs.isRunning = true → bitcoinStart bs = bs) ∧
    (bs.isRunning = false → bitcoinStop bs = bs) ∧
    (bitcoinStop (bitcoinStart bs)).addressCacheRefreshInterval = none ∧
    (bitcoinStop (bitcoinStart bs)).confirmationUpdateInterval = none ∧
    (bitcoinStop (bitcoinStart bs)).isRunning = false := by
  refine ⟨fun h => by simp [zcashStart, h], fun h => by simp [zcashStop, h],
    ?_, ?_, ?_,
    fun h => by simp [bitcoinStart, h], fun h => by simp [bitcoinStop, h],
    ?_, ?_, ?_⟩ <;>
  · by_cases h : zs.isRunning <;> by_cases h2 : bs.isRunning <;>
      simp [zcashStart, zcashStop, bitcoinStart, bitcoinStop, h, h2]

/-- C10 witness: `start` on a concrete running Zcash monitor and `stop`
on a concrete stopped Bitcoin monitor change nothing. -/
theorem start_stop_C10_witness :
    zcashStart { isRunning := true, pollingInterval := some 0,
                 addressCacheRefreshInterval := some 1, nextHandle := 2 } =
      { isRunning := true, pollingInterval := some 0,
        addressCacheRefreshInterval := some 1, nextHandle := 2 } ∧
    bitcoinStop { isRunning := false, addressCacheRefreshInterval := none,
                  confirmationUpdateInterval := none, zmqConnected := false,
                  nextHandle := 0 } =
      { isRunning := false, addressCacheRefreshInterval := none,
        confirmationUpdateInterval := none, zmqConnected := false,
        nextHandle := 0 } := by
  obtain ⟨h1, h2, h3, h4, h5, h6, h7, h8, h9, h10⟩ := start_stop_C10
    { isRunning := true, pollingInterval := some 0,
      addressCacheRefreshInterval := some 1, nextHandle := 2 }
    { isRunning := false, addressCacheRefreshInterval := none,
      confirmationUpdateInterval := none, zmqConnected := false, nextHandle := 0 }
  exact ⟨h1 rfl, h7 rfl⟩

end Omni
